import Mathlib

/-!
Verification of the paper-manager data-access and search layer.

The program under study is a desktop application for cataloguing academic
papers (file paper_manager_base.py, class PaperDatabase for the record
store and class PaperManagerApp for the validation / search-formatting
layer).  This file gives a shallow embedding of that layer and proves the
specified properties about it.

Modelling conventions:
* Text (Python str, SQLite TEXT) is a list of unicode code points
  (List Char).  Python str.strip, str.lower, int(...) and the SQLite
  operators LIKE and ORDER BY are embedded as executable Lean functions
  over these lists, restricted to the character set on which the Python
  and SQLite behaviours agree (ASCII case folding; SQLite folds only
  ASCII letters in LIKE, which coincides with Char.toLower there).
* Timestamps (datetime.now strings) are abstract clock ticks (Nat),
  passed explicitly to each operation that reads the clock.
* The papers table is a List Paper together with the AUTOINCREMENT
  counter; SELECT ... ORDER BY is a stable sort of the filtered rows.
  LIKE patterns built as percent keyword percent are modelled for
  keyword text free of the LIKE metacharacters, where they mean
  ASCII-case-insensitive substring containment.
-/

/-- Text values of the program: a list of unicode code points. -/
abbrev Str := List Char

/-- Embedding of Python str.strip (and the stripping the app applies to
every form field on extraction): remove leading and trailing whitespace. -/
def pyStrip (s : Str) : Str :=
  ((s.dropWhile Char.isWhitespace).reverse.dropWhile Char.isWhitespace).reverse

/-- Embedding of Python str.lower and of the SQLite LIKE case folding,
on the common (ASCII) character set: code-point-wise lower casing. -/
def lowerStr (s : Str) : Str := s.map Char.toLower

/-- Byte-order comparison of text, as SQLite BINARY collation compares
TEXT values in ORDER BY: lexicographic on code points (UTF-8 byte order
coincides with code-point order). -/
def charsLe : Str → Str → Bool
  | [], _ => true
  | _ :: _, [] => false
  | a :: s, b :: t => if a = b then charsLe s t else decide (a < b)

/-- Embedding of Python str.find for a needle and haystack: index of the
leftmost occurrence of the needle, none when absent. -/
def firstMatch (needle : Str) : Str → Option Nat
  | [] => if needle.isPrefixOf ([] : Str) then some 0 else none
  | c :: t =>
    if needle.isPrefixOf (c :: t) then some 0
    else (firstMatch needle t).map (· + 1)

/-- Embedding of the Python membership test needle in haystack. -/
def containsSub (hay needle : Str) : Bool := (firstMatch needle hay).isSome

/-- Case-insensitive containment: the test performed both by the SQLite
prefilter (field LIKE percent-keyword-percent, ASCII folding) and by the
Python filter (keyword.lower() in field.lower()). -/
def lowerContains (hay needle : Str) : Bool :=
  containsSub (lowerStr hay) (lowerStr needle)

/-- Embedding of Python int(...) on a stripped string: an optional sign
followed by a nonempty run of decimal digits. -/
def digitsVal : Str → Option Nat
  | [] => none
  | cs => cs.foldl (fun acc c =>
      match acc with
      | none => none
      | some n => if c.isDigit then some (n * 10 + (c.toNat - 48)) else none)
      (some 0)

/-- Integer parsing as Python int(...) performs it on the year field. -/
def pyToInt : Str → Option Int
  | '+' :: rest => (digitsVal rest).map Int.ofNat
  | '-' :: rest => (digitsVal rest).map (fun n => -(Int.ofNat n))
  | cs => (digitsVal cs).map Int.ofNat

/-- Row of the papers table (schema in init_db, paper_manager_base.py
lines 24-39), with the timestamp columns as abstract clock ticks. -/
structure Paper where
  id : Nat
  title : Str
  title_en : Str
  authors : Str
  authors_en : Str
  year : Int
  tags : Str
  summary : Str
  fulltext : Str
  original_file : Str
  created_at : Nat
  updated_at : Nat
deriving Repr, DecidableEq

/-- Sort key of every SELECT in PaperDatabase: ORDER BY year DESC,
title_en (ascending, BINARY collation). -/
def listOrd (p q : Paper) : Bool :=
  decide (q.year < p.year) || (decide (p.year = q.year) && charsLe p.title_en q.title_en)

/-- Propositional form of the ORDER BY key, for use with the sorting
lemmas. -/
def listRel (p q : Paper) : Prop := listOrd p q = true

instance : DecidableRel listRel := fun p q => instDecidableEqBool (listOrd p q) true

/-- Result ordering applied by the store: a stable sort of the selected
rows by the ORDER BY key. -/
def sortPapers (l : List Paper) : List Paper := List.insertionSort listRel l

/-- Embedding of PaperDatabase.get_all_papers (paper_manager_base.py
lines 107-114): SELECT * FROM papers ORDER BY year DESC, title_en. -/
def get_all_papers (db : List Paper) : List Paper := sortPapers db

/-- Embedding of PaperDatabase.fulltext_search (lines 161-174):
SELECT * FROM papers WHERE summary LIKE k OR fulltext LIKE k
ORDER BY year DESC, title_en, with k the percent-wrapped keyword. -/
def fulltext_search (keyword : Str) (db : List Paper) : List Paper :=
  sortPapers (db.filter (fun p =>
    lowerContains p.summary keyword || lowerContains p.fulltext keyword))

/-- Criteria of PaperDatabase.search_papers, mirroring its parameter
defaults: empty strings and absent year bounds impose no constraint. -/
structure SearchCriteria where
  title : Str := []
  authors : Str := []
  year_from : Option Int := none
  year_to : Option Int := none
  tags : Str := []

/-- Row predicate assembled by PaperDatabase.search_papers (lines
125-153).  The Python truthiness guards (if title, if year_from, ...)
skip a criterion that is empty, absent, or the integer zero. -/
def matchesCriteria (c : SearchCriteria) (p : Paper) : Bool :=
  (decide (c.title = []) ||
    (lowerContains p.title c.title || lowerContains p.title_en c.title)) &&
  (decide (c.authors = []) ||
    (lowerContains p.authors c.authors || lowerContains p.authors_en c.authors)) &&
  (match c.year_from with
   | none => true
   | some y => decide (y = 0) || decide (y ≤ p.year)) &&
  (match c.year_to with
   | none => true
   | some y => decide (y = 0) || decide (p.year ≤ y)) &&
  (decide (c.tags = []) || lowerContains p.tags c.tags)

/-- Embedding of PaperDatabase.search_papers (lines 125-159): the rows
satisfying every provided criterion, in the ORDER BY order. -/
def search_papers (c : SearchCriteria) (db : List Paper) : List Paper :=
  sortPapers (db.filter (matchesCriteria c))

/-- Outcomes of the required-field checks in _save_paper and
_update_paper.  The year checks raise two distinct dialogs: one for an
empty year field, one for a year that fails to parse or is out of
range. -/
inductive ValidationError
  | titleRequired
  | authorsRequired
  | yearRequired
  | yearInvalid
deriving Repr, DecidableEq

/-- Embedding of the validation sequence shared verbatim by _save_paper
(lines 1052-1077) and _update_paper (lines 1628-1653), applied to the
already stripped field values: title, then authors, then the year
checks, first failure wins. -/
def validateFields (title authors yearStr : Str) : Except ValidationError Int :=
  if title = [] then .error .titleRequired
  else if authors = [] then .error .authorsRequired
  else if yearStr = [] then .error .yearRequired
  else
    match pyToInt yearStr with
    | none => .error .yearInvalid
    | some y => if y < 1000 ∨ 9999 < y then .error .yearInvalid else .ok y

/-- Raw values of the nine entry widgets read by _save_paper and
_update_paper, before stripping. -/
structure FormInput where
  title : Str
  title_en : Str
  authors : Str
  authors_en : Str
  year : Str
  tags : Str
  summary : Str
  fulltext : Str
  original_file : Str
deriving Repr, DecidableEq

/-- State of the papers table: its rows plus the AUTOINCREMENT counter
that assigns the next id. -/
structure DbState where
  papers : List Paper
  nextId : Nat
deriving Repr, DecidableEq

/-- Embedding of PaperDatabase.add_paper (lines 59-78): INSERT a new row
with created_at = updated_at = now and a fresh id, returning the id.
Every supplied column value is stored verbatim. -/
def add_paper (title title_en authors authors_en : Str) (year : Int)
    (tags summary fulltext original_file : Str) (now : Nat) (st : DbState) :
    DbState × Nat :=
  (⟨st.papers ++
      [⟨st.nextId, title, title_en, authors, authors_en, year, tags,
        summary, fulltext, original_file, now, now⟩],
    st.nextId + 1⟩,
   st.nextId)

/-- Embedding of PaperManagerApp._save_paper (lines 1039-1101): strip
every form field, run the validation sequence, and only on success call
add_paper.  An empty stripped title_en falls back to title (line 1083)
and an empty stripped authors_en to authors (line 1085). -/
def save_paper (f : FormInput) (now : Nat) (st : DbState) :
    DbState × Except ValidationError Nat :=
  let title := pyStrip f.title
  let title_en := pyStrip f.title_en
  let authors := pyStrip f.authors
  let authors_en := pyStrip f.authors_en
  let yearStr := pyStrip f.year
  match validateFields title authors yearStr with
  | .error e => (st, .error e)
  | .ok y =>
    let r := add_paper title (if title_en = [] then title else title_en)
      authors (if authors_en = [] then authors else authors_en) y
      (pyStrip f.tags) (pyStrip f.summary) (pyStrip f.fulltext)
      (pyStrip f.original_file) now st
    (r.1, .ok r.2)

/-- Editable columns listed in the SET clause of the UPDATE statement of
PaperDatabase.update_paper (lines 88-94). -/
structure PaperFields where
  title : Str
  title_en : Str
  authors : Str
  authors_en : Str
  year : Int
  tags : Str
  summary : Str
  fulltext : Str
  original_file : Str
deriving Repr, DecidableEq

/-- Embedding of PaperDatabase.update_paper (lines 80-97): UPDATE papers
SET every editable column and updated_at = now WHERE id = pid.  The id
and created_at columns are absent from the SET clause. -/
def update_paper (pid : Nat) (f : PaperFields) (now : Nat)
    (db : List Paper) : List Paper :=
  db.map (fun p =>
    if p.id = pid then
      { p with
        title := f.title,
        title_en := f.title_en,
        authors := f.authors,
        authors_en := f.authors_en,
        year := f.year,
        tags := f.tags,
        summary := f.summary,
        fulltext := f.fulltext,
        original_file := f.original_file,
        updated_at := now }
    else p)

/-- Usage errors _execute_fulltext_search raises before it touches the
store. -/
inductive UsageError
  | emptyKeyword
  | noTarget
deriving Repr, DecidableEq

/-- Embedding of PaperManagerApp._execute_fulltext_search (lines
1258-1298): strip the keyword, reject an empty keyword or an empty
target selection before any store interaction, then run the SQL
prefilter (fulltext_search) and keep the rows whose enabled fields match
the keyword case-insensitively. -/
def execute_fulltext_search (kw : Str) (searchSummary searchContent : Bool)
    (db : List Paper) : Except UsageError (List Paper) :=
  let keyword := pyStrip kw
  if keyword = [] then .error .emptyKeyword
  else if !searchSummary && !searchContent then .error .noTarget
  else
    .ok ((fulltext_search keyword db).filter (fun p =>
      (searchSummary && lowerContains p.summary keyword) ||
      (searchContent && lowerContains p.fulltext keyword)))

/-- Marker the snippet code prepends or appends when context was cut at
a field boundary. -/
def ellipsisMarker : Str := ("...".data)

/-- Tag marking a snippet taken from the summary column (the literal tag
string of line 1332). -/
def summaryTag : Str := ("[要約] ".data)

/-- Tag marking a snippet taken from the fulltext column (the literal
tag string of line 1344). -/
def fulltextTag : Str := ("[本文] ".data)

/-- Snippet extraction of _display_fulltext_results (lines 1322-1331 for
summary, 1334-1343 for fulltext): around the first case-insensitive
occurrence of the keyword keep up to 30 characters of context each side,
clipped to the field, marking each truncated side with the ellipsis
marker; none when the field does not match. -/
def makeSnippet (field kw : Str) : Option Str :=
  match firstMatch (lowerStr kw) (lowerStr field) with
  | none => none
  | some pos =>
    let start := pos - 30
    let stop := min field.length (pos + kw.length + 30)
    let snippet0 := (field.drop start).take (stop - start)
    let snippet1 := if 0 < start then ellipsisMarker ++ snippet0 else snippet0
    some (if stop < field.length then snippet1 ++ ellipsisMarker else snippet1)

/-- Construction of the match_info list of _display_fulltext_results
(lines 1320-1344): the tagged snippet of each matching field, summary
entry first. -/
def matchEntries (kw summary fulltext : Str) : List Str :=
  (match makeSnippet summary kw with
   | some s => [summaryTag ++ s]
   | none => []) ++
  (match makeSnippet fulltext kw with
   | some s => [fulltextTag ++ s]
   | none => [])

/-- Representative match description of line 1347: only the first entry
of match_info is surfaced in the result list, the empty string when
there is none. -/
def matchText (kw summary fulltext : Str) : Str :=
  (matchEntries kw summary fulltext).headD []

/-- Ordering relation asserted by the specification for list_all
results: year descending, ties broken by title ascending.  Stated from
the specification text, to compare with the implemented ORDER BY key. -/
def specListRel (p q : Paper) : Prop :=
  q.year < p.year ∨ (p.year = q.year ∧ charsLe p.title q.title = true)

instance : DecidableRel specListRel := fun p q => by
  unfold specListRel
  infer_instance

/-- Concrete paper with title A but title_en Z, used to separate the
title order from the title_en order. -/
def paperAZ : Paper :=
  ⟨1, ("A".data), ("Z".data), ("a".data), ("a".data), 2020, [], [], [], [], 0, 0⟩

/-- Concrete paper with title B but title_en Y, same year as paperAZ. -/
def paperBY : Paper :=
  ⟨2, ("B".data), ("Y".data), ("a".data), ("a".data), 2020, [], [], [], [], 0, 0⟩

/-- Concrete paper of the ordering example: year 2020, title B. -/
def paper2020B : Paper :=
  ⟨1, ("B".data), ("B".data), ("a".data), ("a".data), 2020, [], [], [], [], 0, 0⟩

/-- Concrete paper of the ordering example: year 2019, title A. -/
def paper2019A : Paper :=
  ⟨2, ("A".data), ("A".data), ("a".data), ("a".data), 2019, [], [], [], [], 0, 0⟩

/-- Concrete paper of the ordering example: year 2021, title C. -/
def paper2021C : Paper :=
  ⟨3, ("C".data), ("C".data), ("a".data), ("a".data), 2021, [], [], [], [], 0, 0⟩

/-- Concrete form input whose optional title_en is empty while every
required field is valid. -/
def formEmptyEn : FormInput :=
  ⟨("T".data), [], ("A".data), ("B".data), ("2020".data), ("g".data),
   ("s".data), ("f".data), ("p".data)⟩

/-- Empty store with the id counter at one, as after schema creation. -/
def emptyDb : DbState := ⟨[], 1⟩

/-- Form input with an empty title and otherwise valid fields. -/
def formNoTitle : FormInput :=
  ⟨[], [], ("A".data), [], ("2020".data), [], [], [], []⟩

/-- Absent criteria: the defaults of every search_papers parameter. -/
def noCriteria : SearchCriteria := {}

/-- Concrete replacement fields for the update examples. -/
def sampleFields : PaperFields :=
  ⟨("T2".data), ("U2".data), ("A2".data), ("B2".data), 2022,
   ("g2".data), ("s2".data), ("f2".data), ("p2".data)⟩

/-- Row produced by applying sampleFields to paperAZ at tick nine. -/
def updatedAZ : Paper :=
  ⟨1, ("T2".data), ("U2".data), ("A2".data), ("B2".data), 2022,
   ("g2".data), ("s2".data), ("f2".data), ("p2".data), 0, 9⟩

theorem pyToInt_nil : pyToInt [] = none := rfl

theorem charsLe_refl (s : Str) : charsLe s s = true := by
  induction s with
  | nil => rfl
  | cons a t ih => simp [charsLe, ih]

theorem charsLe_total (s t : Str) : charsLe s t = true ∨ charsLe t s = true := by
  induction s generalizing t with
  | nil => left; rfl
  | cons a s ih =>
    cases t with
    | nil => right; rfl
    | cons b t =>
      by_cases hab : a = b
      · subst hab
        rcases ih t with h | h
        · left; simp [charsLe, h]
        · right; simp [charsLe, h]
      · rcases lt_or_gt_of_ne hab with h | h
        · left; simp [charsLe, hab, h]
        · right; simp [charsLe, Ne.symm hab, h]

theorem charsLe_trans {a b c : Str} (h1 : charsLe a b = true)
    (h2 : charsLe b c = true) : charsLe a c = true := by
  induction a generalizing b c with
  | nil => rfl
  | cons x s ih =>
    cases b with
    | nil => simp [charsLe] at h1
    | cons y t =>
      cases c with
      | nil => simp [charsLe] at h2
      | cons z u =>
        simp only [charsLe] at h1 h2 ⊢
        by_cases hxy : x = y
        · subst hxy
          by_cases hxz : x = z
          · subst hxz
            simp only [if_pos rfl] at h1 h2 ⊢
            exact ih h1 h2
          · simp only [if_pos rfl] at h1
            simp only [if_neg hxz] at h2 ⊢
            exact h2
        · by_cases hyz : y = z
          · subst hyz
            simp only [if_neg hxy] at h1 ⊢
            exact h1
          · simp only [if_neg hxy] at h1
            simp only [if_neg hyz] at h2
            have hx : x < y := of_decide_eq_true h1
            have hy : y < z := of_decide_eq_true h2
            have hxz : x < z := lt_trans hx hy
            simp [ne_of_lt hxz, hxz]

instance : IsTotal Paper listRel := by
  constructor
  intro a b
  unfold listRel listOrd
  rcases lt_trichotomy a.year b.year with h | h | h
  · right; simp [h]
  · rcases charsLe_total a.title_en b.title_en with hc | hc
    · left; simp [h, hc]
    · right; simp [h, hc]
  · left; simp [h]

instance : IsTrans Paper listRel := by
  constructor
  intro a b c hab hbc
  unfold listRel listOrd at *
  simp only [Bool.or_eq_true, Bool.and_eq_true, decide_eq_true_eq] at hab hbc ⊢
  rcases hab with hab | ⟨hab, cab⟩
  · rcases hbc with hbc | ⟨hbc, _⟩
    · left; omega
    · left; omega
  · rcases hbc with hbc | ⟨hbc, cbc⟩
    · left; omega
    · right; exact ⟨by omega, charsLe_trans cab cbc⟩

theorem sortPapers_perm (l : List Paper) : (sortPapers l).Perm l :=
  List.perm_insertionSort listRel l

theorem sortPapers_sorted (l : List Paper) : (sortPapers l).Pairwise listRel :=
  List.sorted_insertionSort listRel l

theorem isPrefixOfChars : ∀ {s t : Str}, s.isPrefixOf t = true ↔ s <+: t := by
  intro s
  induction s with
  | nil =>
    intro t
    constructor
    · intro _; exact ⟨t, rfl⟩
    · intro _; cases t <;> rfl
  | cons a as ih =>
    intro t
    cases t with
    | nil =>
      simp [List.isPrefixOf]
    | cons b bs =>
      simp [List.isPrefixOf, List.cons_prefix_cons, ih]

theorem firstMatch_matches {needle hay : Str} {pos : Nat}
    (h : firstMatch needle hay = some pos) : needle <+: hay.drop pos := by
  induction hay generalizing pos with
  | nil =>
    simp only [firstMatch] at h
    split at h
    · rename_i hp
      cases h
      simpa using isPrefixOfChars.mp hp
    · cases h
  | cons c t ih =>
    simp only [firstMatch] at h
    split at h
    · rename_i hp
      cases h
      simpa using isPrefixOfChars.mp hp
    · rcases Option.map_eq_some'.mp h with ⟨q, hq, rfl⟩
      simpa [List.drop_succ_cons] using ih hq

theorem firstMatch_least {needle hay : Str} {pos : Nat}
    (h : firstMatch needle hay = some pos) :
    ∀ j, j < pos → ¬ needle <+: hay.drop j := by
  induction hay generalizing pos with
  | nil =>
    simp only [firstMatch] at h
    split at h
    · cases h; intro j hj; omega
    · cases h
  | cons c t ih =>
    simp only [firstMatch] at h
    split at h
    · cases h; intro j hj; omega
    · rename_i hp
      rcases Option.map_eq_some'.mp h with ⟨q, hq, rfl⟩
      intro j hj
      cases j with
      | zero =>
        simp only [List.drop_zero]
        intro hcon
        exact hp (isPrefixOfChars.mpr hcon)
      | succ k =>
        simp only [List.drop_succ_cons]
        exact ih hq k (by omega)

theorem containsSub_iff_occurs {hay needle : Str} :
    containsSub hay needle = true ↔ needle <:+: hay := by
  unfold containsSub
  induction hay with
  | nil =>
    simp only [firstMatch, List.infix_nil]
    split
    · rename_i hp
      have : needle = [] := by simpa using isPrefixOfChars.mp hp
      simp [this]
    · rename_i hp
      have : ¬ needle <+: ([] : Str) := fun hc => hp (isPrefixOfChars.mpr hc)
      constructor
      · intro hc; cases hc
      · intro hc
        exact absurd (by simp [hc]) this
  | cons c t ih =>
    simp only [firstMatch]
    split
    · rename_i hp
      simp [(isPrefixOfChars.mp hp).isInfix]
    · rename_i hp
      rw [Option.isSome_map']
      rw [ih, List.infix_cons_iff]
      constructor
      · intro hc; right; exact hc
      · intro hc
        rcases hc with hc | hc
        · exact absurd (isPrefixOfChars.mpr hc) hp
        · exact hc

theorem lowerContains_iff {hay needle : Str} :
    lowerContains hay needle = true ↔ lowerStr needle <:+: lowerStr hay := by
  unfold lowerContains
  exact containsSub_iff_occurs

theorem update_paper_id_created (pid : Nat) (f : PaperFields) (now : Nat)
    (db : List Paper) :
    (update_paper pid f now db).map (fun p => (p.id, p.created_at)) =
      db.map (fun p => (p.id, p.created_at)) := by
  unfold update_paper
  induction db with
  | nil => rfl
  | cons q t ih =>
    simp only [List.map_cons] at ih ⊢
    rw [ih]
    by_cases h : q.id = pid <;> simp [h]

/-- Claim C1 (counterexample): in the store [paperAZ, paperBY] the two
records share a year while their title order and title_en order
disagree; get_all_papers does not return them ordered by title ascending
within the year, refuting the claimed ordering contract. -/
theorem C1_counterexample :
    ¬ ((get_all_papers [paperAZ, paperBY]).Pairwise specListRel) := by
  decide

/-- Claim C1 (amended): get_all_papers returns all records ordered by
year descending with ties broken by title_en ascending (the ORDER BY
key is title_en, not title); the three-record example with years
2020, 2019, 2021 and titles B, A, C still comes back in the order
[2021/C, 2020/B, 2019/A]. -/
theorem C1_list_all_order :
    (∀ db : List Paper, (get_all_papers db).Perm db ∧
      (get_all_papers db).Pairwise (fun p q =>
        q.year < p.year ∨
          (p.year = q.year ∧ charsLe p.title_en q.title_en = true))) ∧
    get_all_papers [paper2020B, paper2019A, paper2021C] =
      [paper2021C, paper2020B, paper2019A] := by
  constructor
  · intro db
    refine ⟨sortPapers_perm db, ?_⟩
    refine (sortPapers_sorted db).imp ?_
    intro a b hab
    simpa [listRel, listOrd, Bool.or_eq_true, Bool.and_eq_true,
      decide_eq_true_eq] using hab
  · decide

/-- Claim C6: filter with no criteria provided returns exactly the
records of list_all, in the same order. -/
theorem C6_filter_default_eq_list_all (db : List Paper) :
    search_papers noCriteria db = get_all_papers db := by
  unfold search_papers get_all_papers
  congr 1
  exact List.filter_eq_self.mpr (fun p _ => rfl)

/-- Claim C4: the create and update validation applies its rules in
order with short-circuit - title non-empty, then authors non-empty,
then the year checks - and each error is reported exactly when every
earlier rule passed and that rule failed; the year bounds are
inclusive, so 999 fails while 1000 and 9999 pass. -/
theorem C4_validation_order (t a y : Str) :
    (validateFields t a y = .error .titleRequired ↔ t = []) ∧
    (validateFields t a y = .error .authorsRequired ↔ (t ≠ [] ∧ a = [])) ∧
    (validateFields t a y = .error .yearRequired ↔
      (t ≠ [] ∧ a ≠ [] ∧ y = [])) ∧
    (validateFields t a y = .error .yearInvalid ↔
      (t ≠ [] ∧ a ≠ [] ∧ y ≠ [] ∧
        (pyToInt y = none ∨
          ∃ n, pyToInt y = some n ∧ (n < 1000 ∨ 9999 < n)))) ∧
    (∀ n : Int, validateFields t a y = .ok n ↔
      (t ≠ [] ∧ a ≠ [] ∧ pyToInt y = some n ∧ 1000 ≤ n ∧ n ≤ 9999)) ∧
    validateFields ("T".data) ("A".data) ("999".data) = .error .yearInvalid ∧
    validateFields ("T".data) ("A".data) ("1000".data) = .ok 1000 ∧
    validateFields ("T".data) ("A".data) ("9999".data) = .ok 9999 := by
  refine ⟨?_, ?_, ?_, ?_, ?_, rfl, rfl, rfl⟩ <;>
    (try intro n) <;>
    (unfold validateFields
     by_cases ht : t = [] <;> by_cases ha : a = [] <;> by_cases hy : y = [] <;>
       rcases hp : pyToInt y with _ | m <;>
         simp_all [pyToInt_nil]) <;>
    (try (split <;> simp_all)) <;>
    (try omega)

/-- Claim C5: a create whose fields fail validation returns that
validation error and performs no write - the store state after the
failed create equals the store state before it. -/
theorem C5_failed_create_no_write (f : FormInput) (now : Nat) (st : DbState)
    (e : ValidationError)
    (h : validateFields (pyStrip f.title) (pyStrip f.authors)
        (pyStrip f.year) = .error e) :
    save_paper f now st = (st, .error e) := by
  unfold save_paper
  simp [h]

/-- Witness for claim C5 at a concrete input: a create with an empty
title fails with the title-required error and leaves the empty store
empty. -/
theorem C5_witness :
    save_paper formNoTitle 5 emptyDb = (emptyDb, .error .titleRequired) :=
  C5_failed_create_no_write formNoTitle 5 emptyDb .titleRequired rfl

/-- Witness for claim C4 at a concrete input: an empty title is
reported as the title-required error. -/
theorem C4_witness :
    validateFields [] ("A".data) ("2020".data) = .error .titleRequired :=
  (C4_validation_order [] ("A".data) ("2020".data)).1.mpr rfl

/-- Claim C7: a keyword scan with an empty (stripped) keyword, or with
both target fields disabled, signals a usage error decided before any
store interaction: the outcome is identical for every store state, so
the store is neither queried nor changed (the scan mutates nothing in
any case). -/
theorem C7_usage_error_before_store (kw : Str) (s c : Bool)
    (h : pyStrip kw = [] ∨ (s = false ∧ c = false)) :
    ∀ db : List Paper,
      execute_fulltext_search kw s c db =
        .error (if pyStrip kw = [] then .emptyKeyword else .noTarget) ∧
      execute_fulltext_search kw s c db = execute_fulltext_search kw s c [] := by
  intro db
  by_cases hk : pyStrip kw = []
  · constructor <;> simp [execute_fulltext_search, hk]
  · rcases h with h | ⟨hs, hc⟩
    · exact absurd h hk
    · subst hs; subst hc
      constructor <;> simp [execute_fulltext_search, hk]

/-- Witness for claim C7 at a concrete input: both targets disabled on
a one-record store yields the no-target usage error, independent of the
store. -/
theorem C7_witness :
    execute_fulltext_search ("x".data) false false [paperAZ] =
      .error (if pyStrip ("x".data) = [] then .emptyKeyword else .noTarget) ∧
    execute_fulltext_search ("x".data) false false [paperAZ] =
      execute_fulltext_search ("x".data) false false [] :=
  C7_usage_error_before_store ("x".data) false false (Or.inr ⟨rfl, rfl⟩) [paperAZ]

/-- Claim C8: updates leave every record's id and created_at exactly as
they were - across any sequence of successive updates - while a record
matching the updated id has its updated_at set to the update's clock
tick. -/
theorem C8_update_frame (db : List Paper) :
    (∀ us : List (Nat × PaperFields × Nat),
      (us.foldl (fun d u => update_paper u.1 u.2.1 u.2.2 d) db).map
          (fun p => (p.id, p.created_at)) =
        db.map (fun p => (p.id, p.created_at))) ∧
    (∀ (pid : Nat) (f : PaperFields) (now : Nat) (p : Paper),
      p ∈ update_paper pid f now db → p.id = pid → p.updated_at = now) := by
  constructor
  · intro us
    induction us generalizing db with
    | nil => rfl
    | cons u t ih =>
      simp only [List.foldl_cons]
      rw [ih (update_paper u.1 u.2.1 u.2.2 db), update_paper_id_created]
  · intro pid f now p hp hid
    unfold update_paper at hp
    rcases List.mem_map.mp hp with ⟨q, hq, hpq⟩
    by_cases h : q.id = pid
    · rw [if_pos h] at hpq
      subst hpq
      rfl
    · rw [if_neg h] at hpq
      subst hpq
      exact absurd hid h

/-- Witness for claim C8 at a concrete input: the record produced by
updating paperAZ carries the update tick as updated_at (and, by the
frame part, its id and created_at are those of paperAZ). -/
theorem C8_witness : updatedAZ.updated_at = 9 :=
  (C8_update_frame [paperAZ]).2 1 sampleFields 9 updatedAZ (by decide) rfl

/-- Claim C9 (counterexample): a create with a valid field set whose
title_en is empty does not store an empty title_en - the create path
substitutes the title, so the single stored record has title_en T. -/
theorem C9_counterexample :
    (save_paper formEmptyEn 7 emptyDb).1.papers.map Paper.title_en =
      [("T".data)] ∧ ("T".data) ≠ ([] : Str) := by
  constructor
  · rfl
  · decide

/-- Claim C9 (amended): the store-level add_paper persists every
supplied column verbatim; the create path persists the stripped form
values, except that an empty stripped title_en falls back to the title
and an empty stripped authors_en to the authors - the remaining
optional fields (tags, summary, fulltext, original_file) are stored as
their stripped values with no fallback, empty string included. -/
theorem C9_create_persists_fields :
    (∀ (title title_en authors authors_en : Str) (year : Int)
        (tags summary fulltext original_file : Str) (now : Nat)
        (st : DbState),
      (add_paper title title_en authors authors_en year tags summary
          fulltext original_file now st).1.papers =
        st.papers ++ [⟨st.nextId, title, title_en, authors, authors_en,
          year, tags, summary, fulltext, original_file, now, now⟩]) ∧
    (∀ (f : FormInput) (now : Nat) (st : DbState) (y : Int),
      validateFields (pyStrip f.title) (pyStrip f.authors)
          (pyStrip f.year) = .ok y →
      (save_paper f now st).1.papers =
        st.papers ++ [⟨st.nextId, pyStrip f.title,
          (if pyStrip f.title_en = [] then pyStrip f.title
           else pyStrip f.title_en),
          pyStrip f.authors,
          (if pyStrip f.authors_en = [] then pyStrip f.authors
           else pyStrip f.authors_en),
          y, pyStrip f.tags, pyStrip f.summary, pyStrip f.fulltext,
          pyStrip f.original_file, now, now⟩]) := by
  constructor
  · intro title title_en authors authors_en year tags summary fulltext
      original_file now st
    rfl
  · intro f now st y h
    unfold save_paper
    simp [h, add_paper]

/-- Witness for claim C9 at a concrete input: the create of formEmptyEn
stores exactly one record whose fields are the stripped form values
with the title fallback applied. -/
theorem C9_witness :
    (save_paper formEmptyEn 7 emptyDb).1.papers =
      emptyDb.papers ++ [⟨emptyDb.nextId, pyStrip formEmptyEn.title,
        (if pyStrip formEmptyEn.title_en = [] then pyStrip formEmptyEn.title
         else pyStrip formEmptyEn.title_en),
        pyStrip formEmptyEn.authors,
        (if pyStrip formEmptyEn.authors_en = [] then
          pyStrip formEmptyEn.authors
         else pyStrip formEmptyEn.authors_en),
        2020, pyStrip formEmptyEn.tags, pyStrip formEmptyEn.summary,
        pyStrip formEmptyEn.fulltext, pyStrip formEmptyEn.original_file,
        7, 7⟩] :=
  C9_create_persists_fields.2 formEmptyEn 7 emptyDb 2020 rfl

/-- Claim C2: with a non-empty stripped keyword and at least one
enabled target field, the keyword scan succeeds and returns a record
exactly when, for some enabled target field, the lowercased field
content contains the lowercased keyword as a substring. -/
theorem C2_scan_membership (kw : Str) (s c : Bool) (db : List Paper)
    (p : Paper) (hk : pyStrip kw ≠ [])
    (ht : s = true ∨ c = true) :
    ∃ l, execute_fulltext_search kw s c db = .ok l ∧
      (p ∈ l ↔ p ∈ db ∧
        ((s = true ∧ lowerStr (pyStrip kw) <:+: lowerStr p.summary) ∨
         (c = true ∧ lowerStr (pyStrip kw) <:+: lowerStr p.fulltext))) := by
  have hsc : (!s && !c) = false := by
    rcases ht with h | h <;> subst h <;> simp
  simp only [execute_fulltext_search, if_neg hk, hsc, Bool.false_eq_true,
    if_false]
  refine ⟨_, rfl, ?_⟩
  rw [List.mem_filter]
  unfold fulltext_search
  rw [(sortPapers_perm _).mem_iff, List.mem_filter]
  constructor
  · rintro ⟨⟨hdb, _⟩, hpred⟩
    refine ⟨hdb, ?_⟩
    simp only [Bool.or_eq_true, Bool.and_eq_true] at hpred
    rcases hpred with ⟨hs, hm⟩ | ⟨hc, hm⟩
    · left; exact ⟨hs, lowerContains_iff.mp hm⟩
    · right; exact ⟨hc, lowerContains_iff.mp hm⟩
  · rintro ⟨hdb, hmatch⟩
    have hsql : (lowerContains p.summary (pyStrip kw) ||
        lowerContains p.fulltext (pyStrip kw)) = true := by
      rw [Bool.or_eq_true]
      rcases hmatch with ⟨_, hm⟩ | ⟨_, hm⟩
      · exact Or.inl (lowerContains_iff.mpr hm)
      · exact Or.inr (lowerContains_iff.mpr hm)
    refine ⟨⟨hdb, hsql⟩, ?_⟩
    simp only [Bool.or_eq_true, Bool.and_eq_true]
    rcases hmatch with ⟨hs, hm⟩ | ⟨hc, hm⟩
    · left; exact ⟨hs, lowerContains_iff.mpr hm⟩
    · right; exact ⟨hc, lowerContains_iff.mpr hm⟩

/-- Witness for claim C2 at a concrete input: a summary-only scan of a
one-record store with a non-empty keyword. -/
theorem C2_witness :
    ∃ l, execute_fulltext_search ("a".data) true false [paperAZ] = .ok l ∧
      (paperAZ ∈ l ↔ paperAZ ∈ [paperAZ] ∧
        ((true = true ∧
           lowerStr (pyStrip ("a".data)) <:+: lowerStr paperAZ.summary) ∨
         (false = true ∧
           lowerStr (pyStrip ("a".data)) <:+: lowerStr paperAZ.fulltext))) :=
  C2_scan_membership ("a".data) true false [paperAZ] paperAZ (by decide)
    (Or.inl rfl)

/-- Claim C10: a non-empty title criterion admits a record whenever the
criterion occurs as a substring of the title or of the title_en field,
and a non-empty authors criterion likewise admits on authors or
authors_en. -/
theorem C10_filter_en_fields (t a : Str) (db : List Paper) (p : Paper)
    (hp : p ∈ db) :
    (t ≠ [] → (t <:+: p.title ∨ t <:+: p.title_en) →
      p ∈ search_papers { title := t } db) ∧
    (a ≠ [] → (a <:+: p.authors ∨ a <:+: p.authors_en) →
      p ∈ search_papers { authors := a } db) := by
  constructor
  · intro _ hm
    unfold search_papers
    rw [(sortPapers_perm _).mem_iff, List.mem_filter]
    refine ⟨hp, ?_⟩
    unfold matchesCriteria
    rcases hm with hm | hm
    · have hc : lowerContains p.title t = true :=
        lowerContains_iff.mpr (hm.map Char.toLower)
      simp [hc]
    · have hc : lowerContains p.title_en t = true :=
        lowerContains_iff.mpr (hm.map Char.toLower)
      simp [hc]
  · intro _ hm
    unfold search_papers
    rw [(sortPapers_perm _).mem_iff, List.mem_filter]
    refine ⟨hp, ?_⟩
    unfold matchesCriteria
    rcases hm with hm | hm
    · have hc : lowerContains p.authors a = true :=
        lowerContains_iff.mpr (hm.map Char.toLower)
      simp [hc]
    · have hc : lowerContains p.authors_en a = true :=
        lowerContains_iff.mpr (hm.map Char.toLower)
      simp [hc]

/-- Witness for claim C10 at concrete inputs: a title criterion equal
to the record's title and an authors criterion equal to the record's
authors each admit the record. -/
theorem C10_witness :
    paperAZ ∈ search_papers { title := ("A".data) } [paperAZ] ∧
    paperAZ ∈ search_papers { authors := ("a".data) } [paperAZ] :=
  ⟨(C10_filter_en_fields ("A".data) ("a".data) [paperAZ] paperAZ
      (by decide)).1 (by decide) (Or.inl (by decide)),
   (C10_filter_en_fields ("A".data) ("a".data) [paperAZ] paperAZ
      (by decide)).2 (by decide) (Or.inl (by decide))⟩

/-- Claim C3: the snippet of a matched field is taken at the leftmost
case-insensitive occurrence, carries at most 30 characters of context
on each side clipped to the field, carries the ellipsis marker on a
side exactly when that side was clipped, is tagged with the field it
came from, and when both fields match the summary snippet is the one
surfaced in the result list. -/
theorem C3_snippet (field kw : Str) (pos : Nat)
    (h : firstMatch (lowerStr kw) (lowerStr field) = some pos) :
    makeSnippet field kw =
      some ((if 0 < pos - 30 then ellipsisMarker else []) ++
        ((field.drop (pos - 30)).take
          (min field.length (pos + kw.length + 30) - (pos - 30))) ++
        (if min field.length (pos + kw.length + 30) < field.length then
          ellipsisMarker else [])) ∧
    lowerStr kw <+: (lowerStr field).drop pos ∧
    (∀ j, j < pos → ¬ lowerStr kw <+: (lowerStr field).drop j) ∧
    pos - (pos - 30) ≤ 30 ∧
    min field.length (pos + kw.length + 30) - (pos + kw.length) ≤ 30 ∧
    (∀ s ft, makeSnippet field kw = some s →
      matchText kw field ft = summaryTag ++ s) ∧
    (∀ s sm, makeSnippet sm kw = none → makeSnippet field kw = some s →
      matchText kw sm field = fulltextTag ++ s) := by
  refine ⟨?_, firstMatch_matches h, firstMatch_least h, by omega,
    by have := Nat.min_le_right field.length (pos + kw.length + 30); omega,
    ?_, ?_⟩
  · simp only [makeSnippet, h]
    split_ifs <;> simp [List.append_assoc]
  · intro s ft hs
    unfold matchText matchEntries
    rw [hs]
    rfl
  · intro s sm hnone hs
    unfold matchText matchEntries
    rw [hnone, hs]
    rfl

/-- Witness for claim C3 at a concrete input: keyword CD matched
case-insensitively inside abcde at position two. -/
theorem C3_witness :
    makeSnippet ("abcde".data) ("CD".data) =
      some ((if 0 < 2 - 30 then ellipsisMarker else []) ++
        ((("abcde".data).drop (2 - 30)).take
          (min ("abcde".data).length (2 + ("CD".data).length + 30) -
            (2 - 30))) ++
        (if min ("abcde".data).length (2 + ("CD".data).length + 30) <
            ("abcde".data).length then ellipsisMarker else [])) ∧
    lowerStr ("CD".data) <+: (lowerStr ("abcde".data)).drop 2 ∧
    (∀ j, j < 2 → ¬ lowerStr ("CD".data) <+: (lowerStr ("abcde".data)).drop j) ∧
    2 - (2 - 30) ≤ 30 ∧
    min ("abcde".data).length (2 + ("CD".data).length + 30) -
      (2 + ("CD".data).length) ≤ 30 ∧
    (∀ s ft, makeSnippet ("abcde".data) ("CD".data) = some s →
      matchText ("CD".data) ("abcde".data) ft = summaryTag ++ s) ∧
    (∀ s sm, makeSnippet sm ("CD".data) = none →
      makeSnippet ("abcde".data) ("CD".data) = some s →
      matchText ("CD".data) sm ("abcde".data) = fulltextTag ++ s) :=
  C3_snippet ("abcde".data) ("CD".data) 2 rfl
